import Mathlib

/-!
Verification development for the document-evaluator repository
(`impress_test_evaluator.py`, `writer_test_evaluator.py`, `temp*.py`).

The definitions below are a shallow embedding of the comparison core:
the tolerance comparator, the fuzzy element matcher, the presentation
structural comparator and the word-document run comparator.  Length
values are embedded as `Int` (Python ints), the float percentage
tolerance as `Rat`, Python's tri-state `None`/`True`/`False` flags as
`Option Bool`, and Python strings as Lean `String` (with `pyStrip`,
`collapseWS` embedding `str.strip()` / `re.sub(r'\s+', ' ', ...)`).
-/

set_option autoImplicit false

namespace Evaluators

/-! ### Python string helpers -/

/-- The ASCII whitespace characters recognised by Python's `str.strip()`
and the regex class `\s`. -/
def isPySpace (c : Char) : Bool :=
  c == ' ' || c == '\t' || c == '\n' || c == '\x0d' || c == '\x0b' || c == '\x0c'

/-- Drop leading and trailing whitespace from a character list. -/
def stripChars (l : List Char) : List Char :=
  ((l.dropWhile isPySpace).reverse.dropWhile isPySpace).reverse

/-- Embedding of Python `str.strip()`. -/
def pyStrip (s : String) : String :=
  String.mk (stripChars s.data)

/-- Replace every maximal run of whitespace by a single space
(embedding of `re.sub(r'\s+', ' ', text)`). -/
def collapseWS : List Char → List Char
  | [] => []
  | [c] => if isPySpace c then [' '] else [c]
  | c1 :: c2 :: rest =>
    if isPySpace c1 && isPySpace c2 then collapseWS (c2 :: rest)
    else (if isPySpace c1 then ' ' else c1) :: collapseWS (c2 :: rest)

/-- Embedding: `normalize_cell_text` from `impress_test_evaluator.py`:
collapse whitespace runs to one space, then strip. -/
def normalize_cell_text (s : String) : String :=
  String.mk (stripChars (collapseWS s.data))

/-- Embedding: `l1` is an initial segment of `l2` (helper for substring testing). -/
def leadsB : List Char → List Char → Bool
  | [], _ => true
  | _ :: _, [] => false
  | a :: as1, b :: bs1 => a == b && leadsB as1 bs1

/-- Embedding: `n` occurs as a contiguous sublist of `h`. -/
def occursInList (n : List Char) : List Char → Bool
  | [] => leadsB n []
  | c :: rest => leadsB n (c :: rest) || occursInList n rest

/-- Embedding of Python's `needle in hay` substring test. -/
def occursIn (needle hay : String) : Bool :=
  occursInList needle.data hay.data

/-! ### Tolerance comparator (`is_approximately_equal`) -/

/-- Embedding: `is_approximately_equal` from `impress_test_evaluator.py` (lines 86-108):
hybrid absolute/percentage tolerance.  Values are EMU integers; the
percentage comparison `abs_diff / max(|a|, |b|) <= tolerance` is embedded
over `Rat`. -/
def is_approximately_equal (val1 val2 : Int) (tolerance : Rat) : Bool :=
  if val1 = val2 then true
  else if val1 = 0 ∧ val2 = 0 then true
  else if |val1 - val2| ≤ 1000 then true
  else if val1 = 0 ∨ val2 = 0 then false
  else decide (((|val1 - val2| : Int) : Rat) / ((max |val1| |val2| : Int) : Rat) ≤ tolerance)

/-- Embedding: `is_approximately_equal` at its default `tolerance=0.005`
(the spec's `numbers_equal`). -/
def numbers_equal (a b : Int) : Bool :=
  is_approximately_equal a b (5 / 1000)

/-- Embedding: `fonts_effectively_equal` from `impress_test_evaluator.py` (lines 174-180):
tri-state boolean equivalence.  `none` embeds Python `None`. -/
def fonts_effectively_equal (val1 val2 : Option Bool) (treat_none_as_false : Bool) : Bool :=
  if val1 = val2 then true
  else if treat_none_as_false then
    decide ((val1 = none ∨ val1 = some false) ∧ (val2 = none ∨ val2 = some false))
  else false

/-! ### Claims C1, C7, C9 -/

/-- C1 (amended): full characterisation of `numbers_equal`.
`numbers_equal a b` is true iff `a = b`, or `|a-b| ≤ 1000`, or both operands
are nonzero and `|a-b| / max(|a|,|b|) ≤ 0.005`; it accepts `(v, v+1000)` for
every `v`; and on `(v, v+1001)` it returns true exactly when the *larger
operand magnitude* `max |v| |v+1001|` is at least `200200` (not, as the claim
states, whenever `1001` is at most 0.5% of `v` itself). -/
theorem numbers_equal_characterization :
    (∀ a b : Int, numbers_equal a b = true ↔
      (a = b ∨ |a - b| ≤ 1000 ∨
        (a ≠ 0 ∧ b ≠ 0 ∧ ((|a - b| : Int) : Rat) / ((max |a| |b| : Int) : Rat) ≤ 5 / 1000))) ∧
    (∀ v : Int, numbers_equal v (v + 1000) = true) ∧
    (∀ v : Int, numbers_equal v (v + 1001) = true ↔ 200200 ≤ max |v| |v + 1001|) := by
  refine ⟨?_, ?_, ?_⟩
  · intro a b
    unfold numbers_equal is_approximately_equal
    split_ifs with h1 h2 h3 h4
    · simp [h1]
    · exact absurd (show a = b by omega) h1
    · constructor
      · intro _
        exact Or.inr (Or.inl h3)
      · intro _
        rfl
    · simp only [Bool.false_eq_true, false_iff]
      rintro (h | h | ⟨ha, hb, _⟩)
      · exact h1 h
      · exact h3 h
      · rcases h4 with h | h
        · exact ha h
        · exact hb h
    · simp only [decide_eq_true_eq]
      rcases not_or.mp h4 with ⟨ha, hb⟩
      constructor
      · intro h
        exact Or.inr (Or.inr ⟨ha, hb, h⟩)
      · rintro (h | h | ⟨_, _, h⟩)
        · exact absurd h h1
        · exact absurd h h3
        · exact h
  · intro v
    unfold numbers_equal is_approximately_equal
    have habs : |v - (v + 1000)| = 1000 := by
      rw [show v - (v + 1000) = -1000 by ring]
      norm_num
    rw [if_neg (show ¬ v = v + 1000 by omega), habs,
      if_neg (show ¬ (v = 0 ∧ v + 1000 = 0) by omega),
      if_pos (show (1000 : Int) ≤ 1000 by norm_num)]
  · intro v
    unfold numbers_equal is_approximately_equal
    have habs : |v - (v + 1001)| = 1001 := by
      rw [show v - (v + 1001) = -1001 by ring]
      norm_num
    rw [if_neg (show ¬ v = v + 1001 by omega), habs,
      if_neg (show ¬ (v = 0 ∧ v + 1001 = 0) by omega),
      if_neg (show ¬ (1001 : Int) ≤ 1000 by norm_num)]
    by_cases hz : v = 0 ∨ v + 1001 = 0
    · -- one operand is zero: the comparator returns false, and the larger
      -- magnitude is `1001 < 200200`, so both sides of the iff are false.
      rw [if_pos hz]
      simp only [Bool.false_eq_true, false_iff]
      intro hmax
      rcases hz with h | h
      · rw [h] at hmax
        norm_num at hmax
      · have hv : v = -1001 := by omega
        rw [hv] at hmax
        norm_num at hmax
    · -- both nonzero: percentage branch.
      rw [if_neg hz]
      have hM : (1 : Int) ≤ max |v| |v + 1001| := by
        rcases not_or.mp hz with ⟨hv, _⟩
        have h1 : (1 : Int) ≤ |v| := by
          rcases abs_pos.mpr hv with h
          omega
        exact le_max_of_le_left h1
      have hM0 : (0 : Rat) < ((max |v| |v + 1001| : Int) : Rat) := by
        exact_mod_cast lt_of_lt_of_le Int.zero_lt_one hM
      simp only [decide_eq_true_eq]
      rw [div_le_iff₀ hM0]
      constructor
      · intro h
        have h2 : ((200200 : Int) : Rat) ≤ ((max |v| |v + 1001| : Int) : Rat) := by
          push_cast at h ⊢
          linarith
        exact_mod_cast h2
      · intro h
        have h2 : ((200200 : Int) : Rat) ≤ ((max |v| |v + 1001| : Int) : Rat) := by
          exact_mod_cast h
        push_cast at h2 ⊢
        linarith

/-- C1 counterexample: at `v = 200000`, `1001` exceeds 0.5% of `v`
(`0.005 * 200000 = 1000 < 1001`), so the claim demands `false`; but the
comparator divides by `max(|a|,|b|) = 201001` and returns `true`. -/
theorem numbers_equal_boundary_counterexample :
    numbers_equal 200000 201001 = true ∧ ((5 : Rat) / 1000) * 200000 < 1001 := by
  constructor
  · unfold numbers_equal is_approximately_equal
    rw [if_neg (show ¬ (200000 : Int) = 201001 by norm_num),
      if_neg (show ¬ ((200000 : Int) = 0 ∧ (201001 : Int) = 0) by norm_num),
      show |(200000 : Int) - 201001| = 1001 by norm_num,
      if_neg (show ¬ (1001 : Int) ≤ 1000 by norm_num),
      if_neg (show ¬ ((200000 : Int) = 0 ∨ (201001 : Int) = 0) by norm_num),
      show max |(200000 : Int)| |(201001 : Int)| = 201001 by norm_num]
    norm_num
  · norm_num

/-- C7: `booleans_equivalent` (i.e. `fonts_effectively_equal` with
`treat_none_as_false = true`) maps `(None, False) ↦ true`,
`(None, True) ↦ false`, `(True, True) ↦ true`, and in general returns true
iff the two values are equal or both lie in `{None, False}`. -/
theorem booleans_equivalent_characterization :
    fonts_effectively_equal none (some false) true = true ∧
    fonts_effectively_equal none (some true) true = false ∧
    fonts_effectively_equal (some true) (some true) true = true ∧
    (∀ a b : Option Bool, fonts_effectively_equal a b true = true ↔
      (a = b ∨ ((a = none ∨ a = some false) ∧ (b = none ∨ b = some false)))) := by
  refine ⟨by decide, by decide, by decide, by decide⟩

/-- C9: the tolerance comparator is symmetric in its two value
arguments, for every tolerance. -/
theorem is_approximately_equal_symm :
    ∀ (a b : Int) (t : Rat),
      is_approximately_equal a b t = is_approximately_equal b a t := by
  intro a b t
  unfold is_approximately_equal
  by_cases h1 : a = b
  · rw [if_pos h1, if_pos h1.symm]
  · rw [if_neg h1, if_neg (Ne.symm h1)]
    have hzz : (a = 0 ∧ b = 0) ↔ (b = 0 ∧ a = 0) := and_comm
    have habs : |a - b| = |b - a| := abs_sub_comm a b
    have hz : (a = 0 ∨ b = 0) ↔ (b = 0 ∨ a = 0) := or_comm
    have hmax : max |a| |b| = max |b| |a| := max_comm _ _
    simp only [habs, hmax]
    rw [if_congr hzz rfl rfl, if_congr hz rfl rfl]

/-! ### Word-document comparator (`writer_test_evaluator.py`) -/

/-- A run as extracted by `extract_paragraphs_with_full_details`:
text plus bold/italic/underline booleans (presence of the XML element)
and optional font size / font name strings. -/
structure RunData where
  text : String
  bold : Bool
  italic : Bool
  underline : Bool
  font_size : Option String
  font_name : Option String
deriving DecidableEq

/-- Embedding: `normalize_font_name` from `writer_test_evaluator.py` (lines 75-81):
strip the "(Body)"/"(Headings)" suffixes, trim, collapse empty to `None`. -/
def normalize_font_name (font : Option String) : Option String :=
  match font with
  | none => none
  | some s =>
    if s = "" then none
    else
      let s1 := ((((s.replace " (Body)" "").replace " (Headings)" "").replace
        " (body)" "").replace " (headings)" "")
      let s2 := pyStrip s1
      if s2 = "" then none else some s2

/-- The normalized formatting record produced by `normalize_formatting`. -/
structure NormalFmt where
  bold : Bool
  italic : Bool
  underline : Bool
  font_size : Option String
  font_name : Option String
deriving DecidableEq

/-- Embedding: `normalize_formatting` from `writer_test_evaluator.py` (lines 83-94). -/
def normalize_formatting (r : RunData) : NormalFmt :=
  { bold := r.bold, italic := r.italic, underline := r.underline,
    font_size := r.font_size, font_name := normalize_font_name r.font_name }

/-- The accumulator loop of `merge_consecutive_runs`: `current` is the run
being extended; a run with the same normalized formatting is appended to it,
otherwise `current` is emitted (when its text is non-empty). -/
def mergeLoop (current : RunData) : List RunData → List RunData
  | [] => if current.text ≠ "" then [current] else []
  | run :: rest =>
    if normalize_formatting current = normalize_formatting run then
      mergeLoop { current with text := current.text ++ run.text } rest
    else
      (if current.text ≠ "" then [current] else []) ++ mergeLoop run rest

/-- Embedding: `merge_consecutive_runs` from `writer_test_evaluator.py` (lines 96-121). -/
def merge_consecutive_runs : List RunData → List RunData
  | [] => []
  | r :: rest => mergeLoop r rest

/-- The per-segment loop of `compare_runs_semantic` (lines 368-397):
first field difference yields the field-specific failure code.
(The human-readable detail string of the source is not modelled;
the result is the `(is_match, error_code)` pair.) -/
def compareSegs : List RunData → List RunData → Bool × Option String
  | a :: as1, g :: gs1 =>
    if pyStrip a.text ≠ pyStrip g.text then (false, some "FAIL_RUN_TEXT_CHANGED")
    else if (normalize_formatting a).bold ≠ (normalize_formatting g).bold then
      (false, some "FAIL_RUN_BOLD_CHANGED")
    else if (normalize_formatting a).italic ≠ (normalize_formatting g).italic then
      (false, some "FAIL_RUN_ITALIC_CHANGED")
    else if (normalize_formatting a).underline ≠ (normalize_formatting g).underline then
      (false, some "FAIL_RUN_UNDERLINE_CHANGED")
    else if (normalize_formatting a).font_size ≠ (normalize_formatting g).font_size then
      (false, some "FAIL_RUN_FONT_SIZE_CHANGED")
    else if (normalize_formatting a).font_name ≠ (normalize_formatting g).font_name then
      (false, some "FAIL_RUN_FONT_NAME_CHANGED")
    else compareSegs as1 gs1
  | _, _ => (true, none)

/-- The default run, used only to read `merged[0]` under a nonemptiness
guard (embedding Python's `merged[0]` indexing). -/
def defaultRun : RunData :=
  { text := "", bold := false, italic := false, underline := false,
    font_size := none, font_name := none }

/-- Embedding: `compare_runs_semantic` from `writer_test_evaluator.py` (lines 337-399):
merge-then-compare with the uniform-formatting fallback when the merged
segment counts differ.  `merged[0]` is embedded as `headD` under the
source's `len(...) > 0` guards. -/
def compare_runs_semantic (actual_runs golden_runs : List RunData) : Bool × Option String :=
  let am := (merge_consecutive_runs actual_runs).filter (fun r => pyStrip r.text ≠ "")
  let gm := (merge_consecutive_runs golden_runs).filter (fun r => pyStrip r.text ≠ "")
  if am.length ≠ gm.length then
    if pyStrip (String.join (am.map (fun r => r.text)))
          = pyStrip (String.join (gm.map (fun r => r.text))) ∧
       0 < am.length ∧ 0 < gm.length ∧
       (∀ r ∈ am, normalize_formatting r = normalize_formatting (am.headD defaultRun)) ∧
       (∀ r ∈ gm, normalize_formatting r = normalize_formatting (gm.headD defaultRun)) ∧
       normalize_formatting (am.headD defaultRun)
          = normalize_formatting (gm.headD defaultRun) then
      (true, none)
    else (false, some "FAIL_PARAGRAPH_RUN_COUNT_CHANGED")
  else compareSegs am gm

/-- A bold run with the given text, the other formatting fields clear. -/
def boldRun (t : String) : RunData :=
  { text := t, bold := true, italic := false, underline := false,
    font_size := none, font_name := none }

/-! ### `pyStrip` support lemmas -/

theorem stripChars_eq_nil_iff (l : List Char) :
    stripChars l = [] ↔ ∀ c ∈ l, isPySpace c = true := by
  unfold stripChars
  rw [List.reverse_eq_nil_iff, List.dropWhile_eq_nil_iff]
  constructor
  · intro h c hc
    have h' : ∀ c ∈ l.dropWhile isPySpace, isPySpace c = true := by
      intro c hc2
      exact h c (List.mem_reverse.mpr hc2)
    rw [← List.takeWhile_append_dropWhile (p := isPySpace) (l := l)] at hc
    rcases List.mem_append.mp hc with h1 | h2
    · exact List.mem_takeWhile_imp h1
    · exact h' c h2
  · intro h c hc
    exact h c ((List.dropWhile_sublist (p := isPySpace) (l := l)).subset
      (List.mem_reverse.mp hc))

theorem pyStrip_eq_empty_iff (s : String) :
    pyStrip s = "" ↔ stripChars s.data = [] := by
  constructor
  · intro h
    simpa [pyStrip] using congrArg String.data h
  · intro h
    rw [pyStrip, h]

theorem text_ne_of_pyStrip_ne {s : String} (h : pyStrip s ≠ "") : s ≠ "" := by
  intro hs
  rw [hs] at h
  exact h rfl

theorem append_ne_empty_left {s t : String} (h : s ≠ "") : s ++ t ≠ "" := by
  intro h0
  apply h
  have hd := congrArg String.data h0
  rw [String.data_append] at hd
  have h1 : s.data = [] := (List.append_eq_nil.mp hd).1
  cases s with
  | mk d =>
    simp only [String.data] at h1
    rw [h1]

theorem pyStrip_append_left_ne {s t : String} (h : pyStrip s ≠ "") :
    pyStrip (s ++ t) ≠ "" := by
  intro hc
  apply h
  rw [pyStrip_eq_empty_iff] at hc ⊢
  rw [stripChars_eq_nil_iff] at hc ⊢
  intro c hcs
  apply hc
  rw [String.data_append]
  exact List.mem_append_left _ hcs

/-! ### Claims C3, C4 -/

/-- C3 counterexample: removing bold from the second of two bold golden
runs is rejected, but with the code `FAIL_PARAGRAPH_RUN_COUNT_CHANGED`
(the merged segment counts differ: candidate 2, golden 1), not with
`FAIL_RUN_BOLD_CHANGED` as the claim states. -/
theorem compare_runs_bold_removal_code_counterexample :
    compare_runs_semantic
        [boldRun "Hello ", { boldRun "World" with bold := false }]
        [boldRun "Hello ", boldRun "World"]
      = (false, some "FAIL_PARAGRAPH_RUN_COUNT_CHANGED") ∧
    (some "FAIL_PARAGRAPH_RUN_COUNT_CHANGED" : Option String)
      ≠ some "FAIL_RUN_BOLD_CHANGED" := by
  refine ⟨by decide, by decide⟩

/-- C3 (amended): when the golden paragraph has two adjacent runs with
identical normalized formatting, both bold and both with non-blank text, and
the candidate removes bold from the second run, `compare_runs_semantic`
reports a mismatch — but with the code `FAIL_PARAGRAPH_RUN_COUNT_CHANGED`
(not `FAIL_RUN_BOLD_CHANGED`); in particular it does not accept the pair as
equal merely because the concatenated texts match. -/
theorem compare_runs_bold_removal_detected (r1 r2 : RunData)
    (hb1 : r1.bold = true) (hfmt : normalize_formatting r1 = normalize_formatting r2)
    (ht1 : pyStrip r1.text ≠ "") (ht2 : pyStrip r2.text ≠ "") :
    compare_runs_semantic [r1, { r2 with bold := false }] [r1, r2]
      = (false, some "FAIL_PARAGRAPH_RUN_COUNT_CHANGED") := by
  have htext1 : r1.text ≠ "" := text_ne_of_pyStrip_ne ht1
  have htext2 : r2.text ≠ "" := text_ne_of_pyStrip_ne ht2
  have happ : r1.text ++ r2.text ≠ "" := append_ne_empty_left htext1
  have hne : normalize_formatting r1 ≠ normalize_formatting { r2 with bold := false } := by
    intro h
    have hb : r1.bold = false := congrArg NormalFmt.bold h
    rw [hb1] at hb
    exact Bool.noConfusion hb
  have ham : merge_consecutive_runs [r1, { r2 with bold := false }]
      = [r1, { r2 with bold := false }] := by
    simp only [merge_consecutive_runs, mergeLoop]
    rw [if_neg hne, if_pos htext1, if_pos htext2]
    rfl
  have hgm : merge_consecutive_runs [r1, r2]
      = [{ r1 with text := r1.text ++ r2.text }] := by
    simp only [merge_consecutive_runs, mergeLoop]
    rw [if_pos hfmt, if_pos happ]
  have hfa : ([r1, { r2 with bold := false }] : List RunData).filter
      (fun r => decide (pyStrip r.text ≠ "")) = [r1, { r2 with bold := false }] := by
    simp [ht1, ht2]
  have hfg : ([{ r1 with text := r1.text ++ r2.text }] : List RunData).filter
      (fun r => decide (pyStrip r.text ≠ "")) = [{ r1 with text := r1.text ++ r2.text }] := by
    simp [pyStrip_append_left_ne ht1]
  simp only [compare_runs_semantic, ham, hgm, hfa, hfg]
  rw [if_pos (show ([r1, { r2 with bold := false }] : List RunData).length
      ≠ ([{ r1 with text := r1.text ++ r2.text }] : List RunData).length by simp)]
  rw [if_neg ?_]
  rintro ⟨-, -, -, hall, -, -⟩
  exact hne ((hall { r2 with bold := false } (by simp)).symm)

theorem compare_runs_bold_removal_detected_witness :
    (boldRun "Hello ").bold = true ∧
    normalize_formatting (boldRun "Hello ") = normalize_formatting (boldRun "World") ∧
    pyStrip (boldRun "Hello ").text ≠ "" ∧ pyStrip (boldRun "World").text ≠ "" ∧
    compare_runs_semantic [boldRun "Hello ", { boldRun "World" with bold := false }]
        [boldRun "Hello ", boldRun "World"]
      = (false, some "FAIL_PARAGRAPH_RUN_COUNT_CHANGED") :=
  ⟨rfl, rfl, by decide, by decide,
    compare_runs_bold_removal_detected (boldRun "Hello ") (boldRun "World") rfl rfl
      (by decide) (by decide)⟩

/-- C4: golden runs `"Hello "` (bold) and `"World"` (bold) merge to the
single segment `"Hello World"` (bold), the candidate's single bold run stays
one segment, and `compare_runs_semantic` reports a match with no failure
code. -/
theorem merge_then_compare_hello_world :
    merge_consecutive_runs [boldRun "Hello ", boldRun "World"] = [boldRun "Hello World"] ∧
    merge_consecutive_runs [boldRun "Hello World"] = [boldRun "Hello World"] ∧
    compare_runs_semantic [boldRun "Hello World"] [boldRun "Hello ", boldRun "World"]
      = (true, none) := by
  refine ⟨by decide, by decide, by decide⟩

/-! ### Presentation data model (`impress_test_evaluator.py`)

Read-only views over the python-pptx document object model, restricted to
the attributes the comparator actually reads.  `Option Bool` embeds the
tri-state `None`/`True`/`False` font flags; `Option Nat` embeds nullable
RGB values; geometry is `Int` EMUs. -/

/-- The `MSO_SHAPE_TYPE` tags the comparator distinguishes; every other
enum value is `other n`. -/
inductive ShapeType where
  | textBox
  | autoShape
  | placeholder
  | picture
  | table
  | group
  | other (n : Nat)
deriving DecidableEq

/-- A `line.color` value: `rgb` is `some` exactly when `hasattr(color, 'rgb')`
holds; `ctype` embeds `color.type`. -/
structure LineColor where
  rgb : Option Nat
  ctype : Option Nat
deriving DecidableEq

/-- A shape's `line` (border) descriptor. -/
structure LineProps where
  dashStyle : Option Nat
  width : Option Int
  color : LineColor
deriving DecidableEq

/-- A run's `font` record. -/
structure FontData where
  name : Option String
  size : Option Int
  bold : Option Bool
  italic : Option Bool
  underline : Option Bool
  colorRGB : Option Nat
deriving DecidableEq

/-- One `(lvl, char, text, color)` tuple produced by `extract_bullets`. -/
structure Bullet where
  lvl : Option String
  mark : String
  text : String
  color : String
deriving DecidableEq

/-- A text run: text, font record, the raw `strike` attribute, and the
bullet list `extract_bullets` reads from the run's part blob
(`none` embeds an extraction exception). -/
structure Run where
  text : String
  font : FontData
  strike : Option String
  bullets : Option (List Bullet)
deriving DecidableEq

/-- A paragraph of a text frame. -/
structure Paragraph where
  alignment : Option Int
  text : String
  level : Int
  runs : List Run
deriving DecidableEq

/-- A table cell: its `text` and its `text_frame.paragraphs`. -/
structure Cell where
  text : String
  paragraphs : List Paragraph
deriving DecidableEq

/-- A table: row-major cell grid plus the column count
(`len(table.columns)`). -/
structure Table where
  cells : List (List Cell)
  nCols : Nat
deriving DecidableEq

/-- Embedding: `table.cell(r, c)` of the embedding. -/
def cellAt (t : Table) (r c : Nat) : Cell :=
  List.getD (List.getD t.cells r []) c { text := "", paragraphs := [] }

/-- The non-recursive attributes of a shape.  `hasText` embeds
`hasattr(shape, 'text')` / `hasattr(shape, 'text_frame')`; `hasPos` embeds
`hasattr(shape, 'left')`; `imageHash` is the MD5 digest of the picture blob
(`none` embeds a failing blob read); `table` is meaningful for table
shapes. -/
structure ShapeData where
  shapeType : ShapeType
  hasText : Bool
  text : String
  imageHash : Option String
  hasPos : Bool
  left : Int
  top : Int
  width : Int
  height : Int
  line : Option LineProps
  paragraphs : List Paragraph
  table : Table
deriving DecidableEq

/-- A shape: its attribute record plus nested child shapes (nonempty only
for group shapes). -/
inductive Shape where
  | node (data : ShapeData) (children : List Shape)

/-- The attribute record of a shape. -/
def Shape.data : Shape → ShapeData
  | .node d _ => d

/-- The nested shapes of a group. -/
def Shape.children : Shape → List Shape
  | .node _ c => c

/-- A slide: shapes, background fill (`ftype`/`foreRGB` embed
`background.fill.type` / `fill.fore_color.rgb`), the slide master's
background fill, and the optional notes text. -/
structure Slide where
  shapes : List Shape
  fillType : Int
  fillRGB : Nat
  masterFillType : Int
  masterFillRGB : Nat
  notes : Option String

/-- Embedding: `get_slide_background_color` from `impress_test_evaluator.py`
(lines 119-128). -/
def get_slide_background_color (s : Slide) : Option Nat :=
  if s.fillType = 1 then some s.fillRGB
  else if s.fillType = 5 then
    if s.masterFillType = 1 then some s.masterFillRGB else none
  else none

/-- Embedding: `get_slide_notes` from `impress_test_evaluator.py` (lines 130-135). -/
def get_slide_notes (s : Slide) : String :=
  s.notes.getD ""

/-! ### Signature extractor and fuzzy matcher -/

/-- The cell-content part of `get_shape_signature` for table shapes:
all non-empty normalized cell texts in row-major order joined with `"|"`. -/
def tableSignatureText (t : Table) : String :=
  String.intercalate "|"
    ((List.range t.cells.length).map (fun r =>
      (List.range t.nCols).filterMap (fun c =>
        let s := normalize_cell_text (cellAt t r c).text
        if s = "" then none else some s))).flatten

/-- Embedding: `get_shape_signature` from `impress_test_evaluator.py` (lines 185-218):
`(shape_type, text_content, image_hash)`. -/
def get_shape_signature (d : ShapeData) : ShapeType × String × String :=
  let text0 := if d.hasText then pyStrip d.text else ""
  let ihash := if d.shapeType = ShapeType.picture then (d.imageHash.getD "") else ""
  let text1 := if d.shapeType = ShapeType.table then tableSignatureText d.table else text0
  (d.shapeType, text1, ihash)

/-- The `TEXT_SHAPE_TYPES` set of `find_matching_shape` (lines 230-234). -/
def TEXT_SHAPE_TYPES : List ShapeType :=
  [ShapeType.textBox, ShapeType.autoShape, ShapeType.placeholder]

/-- The type-compatibility gate of `find_matching_shape` (lines 249-257):
`some` is the type score, `none` is outright rejection (`continue`). -/
def typeGate (t c : ShapeType) : Option Int :=
  if t = c then some 10
  else if t ∈ TEXT_SHAPE_TYPES ∧ c ∈ TEXT_SHAPE_TYPES then some 5
  else none

/-- The text-content score of `find_matching_shape` (lines 259-266). -/
def textScore (tText cText : String) : Int :=
  if tText ≠ "" ∧ cText ≠ "" then
    if tText = cText then 100
    else if occursIn tText cText = true ∨ occursIn cText tText = true then 50
    else 0
  else if tText = "" ∧ cText = "" then 20
  else 0

/-- The image-hash score of `find_matching_shape` (lines 268-271). -/
def hashScore (tHash cHash : String) : Int :=
  if tHash ≠ "" ∧ cHash ≠ "" then
    if tHash = cHash then 100 else 0
  else 0

/-- The position-proximity score of `find_matching_shape` (lines 273-279). -/
def posScore (t c : ShapeData) : Int :=
  if t.hasPos = true ∧ c.hasPos = true then
    if |t.left - c.left| + |t.top - c.top| < 100000 then 10
    else if |t.left - c.left| + |t.top - c.top| < 500000 then 5
    else 0
  else 0

/-- The total score one loop iteration of `find_matching_shape` assigns to a
candidate, `none` when the type gate rejects it. -/
def scoreShape (target cand : ShapeData) : Option Int :=
  match typeGate (get_shape_signature target).1 (get_shape_signature cand).1 with
  | none => none
  | some ts =>
    some (ts + textScore (get_shape_signature target).2.1 (get_shape_signature cand).2.1
      + hashScore (get_shape_signature target).2.2 (get_shape_signature cand).2.2
      + posScore target cand)

/-- Python `enumerate`: pair each element with its index starting at `n`. -/
def enumIdx {α : Type} : Nat → List α → List (Nat × α)
  | _, [] => []
  | n, a :: l => (n, a) :: enumIdx (n + 1) l

/-- One iteration of the candidate loop of `find_matching_shape`
(lines 240-284): skip used indices, skip gate-rejected candidates, keep a
strictly better score.  State is `(best_match, best_match_idx, best_score)`. -/
def findStep (target : ShapeData) (used : List Nat) (p : Nat × ShapeData)
    (st : Option ShapeData × Int × Int) : Option ShapeData × Int × Int :=
  if p.1 ∈ used then st
  else match scoreShape target p.2 with
    | none => st
    | some sc => if st.2.2 < sc then (some p.2, (p.1 : Int), sc) else st

/-- The candidate loop of `find_matching_shape`, initially `(none, -1, -1)`. -/
def findLoop (target : ShapeData) (used : List Nat) :
    List (Nat × ShapeData) → Option ShapeData × Int × Int → Option ShapeData × Int × Int
  | [], st => st
  | p :: rest, st => findLoop target used rest (findStep target used p st)

/-- Embedding: `find_matching_shape` from `impress_test_evaluator.py` (lines 221-286):
run the loop from the `(None, -1, -1)` sentinel and return
`(best_match, best_match_idx)`. -/
def find_matching_shape (target : ShapeData) (cands : List ShapeData)
    (used : List Nat) : Option ShapeData × Int :=
  ((findLoop target used (enumIdx 0 cands) (none, -1, -1)).1,
   (findLoop target used (enumIdx 0 cands) (none, -1, -1)).2.1)

/-! ### Shape comparison functions -/

/-- Embedding: `compare_bullets` from `impress_test_evaluator.py` (lines 162-172):
texts and bullet characters must agree, levels agree after normalising
`None` to `'0'`; bullet colors are ignored. -/
def compare_bullets (b1 b2 : List Bullet) : Bool :=
  if b1.length ≠ b2.length then false
  else (b1.zip b2).all (fun p =>
    decide (p.1.text = p.2.text) && decide (p.1.mark = p.2.mark) &&
    decide (p.1.lvl.getD "0" = p.2.lvl.getD "0"))

/-- Embedding: `normalize_alignment` (lines 110-112): `None` becomes `PP_ALIGN.LEFT`
(embedded as `1`). -/
def normalize_alignment (a : Option Int) : Int :=
  a.getD 1

/-- The underline comparison of `compare_text_shape` (lines 497-505):
a mismatch only when both are explicit, or when `None` faces explicit
`True`. -/
def underlineTextOk (u1 u2 : Option Bool) : Bool :=
  if u1 = u2 then true
  else if u1 ≠ none ∧ u2 ≠ none then false
  else if (u1 = none ∧ u2 = some true) ∨ (u1 = some true ∧ u2 = none) then false
  else true

/-- The underline comparison of `compare_table_shape` (lines 407-413). -/
def underlineTableOk (u1 u2 : Option Bool) : Bool :=
  if u1 = u2 then true
  else if ¬ (u1 = none ∧ u2 = none) then
    if (u1.isNone ≠ u2.isNone) ∨ ((u1 = some true) ≠ (u2 = some true)) then false
    else true
  else true

/-- The font-color comparison used by both run loops: compared only when
both colors expose `rgb`. -/
def colorOk (c1 c2 : Option Nat) : Bool :=
  match c1, c2 with
  | some x, some y => decide (x = y)
  | _, _ => true

/-- The per-run checks of `compare_text_shape` (lines 468-522), in source
order. -/
def textRunOk (r1 r2 : Run) : Bool :=
  decide (r1.font.name = r2.font.name) &&
  decide (r1.font.size = r2.font.size) &&
  fonts_effectively_equal r1.font.bold r2.font.bold true &&
  fonts_effectively_equal r1.font.italic r2.font.italic true &&
  colorOk r1.font.colorRGB r2.font.colorRGB &&
  underlineTextOk r1.font.underline r2.font.underline &&
  decide (r1.strike.getD "noStrike" = r2.strike.getD "noStrike") &&
  (match r1.bullets, r2.bullets with
   | some b1, some b2 => compare_bullets b1 b2
   | _, _ => true)

/-- The per-paragraph checks of `compare_text_shape` (lines 442-465). -/
def textParaOk (p1 p2 : Paragraph) : Bool :=
  decide (normalize_alignment p1.alignment = normalize_alignment p2.alignment) &&
  decide (p1.text = p2.text) &&
  decide (p1.level = p2.level) &&
  decide (p1.runs.length = p2.runs.length) &&
  (p1.runs.zip p2.runs).all (fun p => textRunOk p.1 p.2)

/-- Embedding: `compare_text_shape` from `impress_test_evaluator.py` (lines 429-524). -/
def compare_text_shape (d1 d2 : ShapeData) : Nat :=
  if pyStrip d1.text = pyStrip d2.text ∧
     d1.paragraphs.length = d2.paragraphs.length ∧
     (d1.paragraphs.zip d2.paragraphs).all (fun p => textParaOk p.1 p.2) then 1
  else 0

/-- Embedding: `compare_shape_geometry` from `impress_test_evaluator.py`
(lines 417-427). -/
def compare_shape_geometry (d1 d2 : ShapeData) : Bool :=
  numbers_equal d1.left d2.left && numbers_equal d1.top d2.top &&
  numbers_equal d1.width d2.width && numbers_equal d1.height d2.height

/-- Embedding: `compare_picture_shape` from `impress_test_evaluator.py`
(lines 291-338).  A failing blob read (hash `none`) skips the hash check,
as the source's `except` branch does. -/
def compare_picture_shape (d1 d2 : ShapeData) : Nat :=
  if ¬ (numbers_equal d1.left d2.left = true ∧ numbers_equal d1.top d2.top = true) then 0
  else if ¬ (numbers_equal d1.width d2.width = true ∧
      numbers_equal d1.height d2.height = true) then 0
  else if (match d1.imageHash, d2.imageHash with
           | some h1, some h2 => decide (h1 ≠ h2)
           | _, _ => false) then 0
  else
    match d1.line, d2.line with
    | some l1, some l2 =>
      if l1.dashStyle ≠ l2.dashStyle then 0
      else if ¬ is_approximately_equal (l1.width.getD 0) (l2.width.getD 0) (1 / 100) = true then 0
      else if ¬ colorOk l1.color.rgb l2.color.rgb = true then 0
      else if (l1.color.rgb.isSome ∧ l2.color.rgb.isSome) ∨ l1.color.ctype = l2.color.ctype
        then 1 else 0
    | _, _ => 1

/-- The per-run checks of `compare_table_shape` (lines 388-413). -/
def tableRunOk (r1 r2 : Run) : Bool :=
  colorOk r1.font.colorRGB r2.font.colorRGB &&
  fonts_effectively_equal r1.font.bold r2.font.bold true &&
  fonts_effectively_equal r1.font.italic r2.font.italic true &&
  underlineTableOk r1.font.underline r2.font.underline

/-- The per-paragraph checks of `compare_table_shape` (lines 383-413). -/
def tableParaOk (p1 p2 : Paragraph) : Bool :=
  decide (p1.runs.length = p2.runs.length) &&
  (p1.runs.zip p2.runs).all (fun p => tableRunOk p.1 p.2)

/-- The per-cell checks of `compare_table_shape` (lines 363-413). -/
def tableCellOk (c1 c2 : Cell) : Bool :=
  decide (normalize_cell_text c1.text = normalize_cell_text c2.text) &&
  decide (c1.paragraphs.length = c2.paragraphs.length) &&
  (c1.paragraphs.zip c2.paragraphs).all (fun p => tableParaOk p.1 p.2)

/-- Embedding: `compare_table_shape` from `impress_test_evaluator.py` (lines 340-415):
the position check is absolute-only with `POSITION_TOLERANCE_EMU = 2000`. -/
def compare_table_shape (d1 d2 : ShapeData) : Nat :=
  if 2000 < |d1.left - d2.left| ∨ 2000 < |d1.top - d2.top| then 0
  else if ¬ (numbers_equal d1.width d2.width = true ∧
      numbers_equal d1.height d2.height = true) then 0
  else if d1.table.cells.length ≠ d2.table.cells.length ∨
      d1.table.nCols ≠ d2.table.nCols then 0
  else if (List.range d1.table.cells.length).all (fun r =>
      (List.range d1.table.nCols).all (fun c =>
        tableCellOk (cellAt d1.table r c) (cellAt d2.table r c))) then 1
  else 0

/-! ### Main comparison (`compare_pptx_files`) -/

mutual

/-- Embedding: `_extract_from_shape` of `get_all_text_shapes` (lines 67-84): collect
text-frame shapes, recursing into groups. -/
def extractFromShape : Shape → List Shape
  | .node d ch =>
    (if d.hasText then [Shape.node d ch] else []) ++
    (if d.shapeType = ShapeType.group then extractFromShapeList ch else [])

/-- Embedding: `get_all_text_shapes` over a shape list. -/
def extractFromShapeList : List Shape → List Shape
  | [] => []
  | s :: ss => extractFromShape s ++ extractFromShapeList ss

end

/-- The per-matched-pair comparisons of the main loop (lines 589-612):
picture check, table check, geometry check, text check. -/
def compareMatchedPair (t g : ShapeData) : Bool :=
  (if t.shapeType = ShapeType.picture then decide (compare_picture_shape t g = 1) else true) &&
  (if t.shapeType = ShapeType.table then decide (compare_table_shape t g = 1) else true) &&
  compare_shape_geometry t g &&
  (if t.hasText = true ∧ g.hasText = true then decide (compare_text_shape t g = 1) else true)

/-- The shape-pairing loop of `compare_pptx_files` (lines 576-612): each
test shape must find a match, the pair must compare equal, and the claimed
golden index is added to the used set.  Returns the final used set, `none`
on failure. -/
def mainPairLoop : List ShapeData → List ShapeData → List Nat → Option (List Nat)
  | [], _, used => some used
  | t :: ts, goldens, used =>
    match find_matching_shape t goldens used with
    | (none, _) => none
    | (some g, gi) =>
      if compareMatchedPair t g then mainPairLoop ts goldens (used.insert gi.toNat)
      else none

/-- The secondary text-shape pass of `compare_pptx_files` (lines 629-655):
fuzzy-match each flattened test text shape and compare text, paragraph
count and per-paragraph alignment. -/
def textPairLoop : List ShapeData → List ShapeData → List Nat → Bool
  | [], _, _ => true
  | t :: ts, goldens, used =>
    match find_matching_shape t goldens used with
    | (none, _) => false
    | (some g, gi) =>
      decide (pyStrip t.text = pyStrip g.text) &&
      decide (t.paragraphs.length = g.paragraphs.length) &&
      (t.paragraphs.zip g.paragraphs).all (fun p =>
        decide (normalize_alignment p.1.alignment = normalize_alignment p.2.alignment)) &&
      textPairLoop ts goldens (used.insert gi.toNat)

/-- The per-slide body of `compare_pptx_files` (lines 552-655). -/
def slideOk (s1 s2 : Slide) : Bool :=
  decide (get_slide_background_color s1 = get_slide_background_color s2) &&
  decide (pyStrip (get_slide_notes s1) = pyStrip (get_slide_notes s2)) &&
  decide (s1.shapes.length = s2.shapes.length) &&
  (match mainPairLoop (s1.shapes.map Shape.data) (s2.shapes.map Shape.data) [] with
   | none => false
   | some used => decide (used.length = s2.shapes.length)) &&
  decide ((extractFromShapeList s1.shapes).length = (extractFromShapeList s2.shapes).length) &&
  textPairLoop ((extractFromShapeList s1.shapes).map Shape.data)
    ((extractFromShapeList s2.shapes).map Shape.data) []

/-- Embedding: `compare_pptx_files` from `impress_test_evaluator.py` (lines 529-657):
`1` when the documents match, `0` otherwise. -/
def compare_pptx_files (prs1 prs2 : List Slide) : Nat :=
  if prs1.length ≠ prs2.length then 0
  else if (prs1.zip prs2).all (fun p => slideOk p.1 p.2) then 1
  else 0

/-! ### Matcher lemmas -/

theorem textScore_nonneg (a b : String) : 0 ≤ textScore a b := by
  unfold textScore
  split_ifs <;> norm_num

theorem hashScore_nonneg (a b : String) : 0 ≤ hashScore a b := by
  unfold hashScore
  split_ifs <;> norm_num

theorem posScore_nonneg (t c : ShapeData) : 0 ≤ posScore t c := by
  unfold posScore
  split_ifs <;> norm_num

theorem textScore_le_self (t c : String) : textScore t c ≤ textScore t t := by
  unfold textScore
  by_cases ht : t = ""
  · subst ht
    split_ifs <;> simp_all
  · rw [if_pos (show t ≠ "" ∧ t ≠ "" from ⟨ht, ht⟩), if_pos rfl]
    split_ifs <;> norm_num

theorem hashScore_le_self (t c : String) : hashScore t c ≤ hashScore t t := by
  unfold hashScore
  by_cases ht : t = ""
  · subst ht
    split_ifs <;> simp_all
  · rw [if_pos (show t ≠ "" ∧ t ≠ "" from ⟨ht, ht⟩), if_pos rfl]
    split_ifs <;> norm_num

theorem posScore_self (t : ShapeData) : posScore t t = (if t.hasPos = true then 10 else 0) := by
  unfold posScore
  by_cases ht : t.hasPos = true
  · rw [if_pos ⟨ht, ht⟩, if_pos ht,
      show |t.left - t.left| + |t.top - t.top| = 0 by simp,
      if_pos (show (0 : Int) < 100000 by norm_num)]
  · rw [if_neg (by tauto), if_neg ht]

theorem posScore_le_self (t c : ShapeData) : posScore t c ≤ posScore t t := by
  rw [posScore_self]
  unfold posScore
  by_cases ht : t.hasPos = true
  · rw [if_pos ht]
    split_ifs <;> norm_num
  · rw [if_neg (by tauto), if_neg ht]

theorem typeGate_self (x : ShapeType) : typeGate x x = some 10 := by
  simp [typeGate]

theorem typeGate_le {a b : ShapeType} {s : Int} (h : typeGate a b = some s) : s ≤ 10 := by
  unfold typeGate at h
  split_ifs at h
  · have hs := Option.some_inj.mp h
    omega
  · have hs := Option.some_inj.mp h
    omega

theorem typeGate_ge {a b : ShapeType} {s : Int} (h : typeGate a b = some s) : 5 ≤ s := by
  unfold typeGate at h
  split_ifs at h
  · have hs := Option.some_inj.mp h
    omega
  · have hs := Option.some_inj.mp h
    omega

/-- The score `find_matching_shape` assigns to a candidate identical to the
target. -/
def selfScore (d : ShapeData) : Int :=
  10 + textScore (get_shape_signature d).2.1 (get_shape_signature d).2.1
    + hashScore (get_shape_signature d).2.2 (get_shape_signature d).2.2
    + posScore d d

theorem scoreShape_self (d : ShapeData) : scoreShape d d = some (selfScore d) := by
  unfold scoreShape selfScore
  rw [typeGate_self]

theorem scoreShape_ge {t c : ShapeData} {k : Int} (h : scoreShape t c = some k) : 5 ≤ k := by
  unfold scoreShape at h
  rcases hg : typeGate (get_shape_signature t).1 (get_shape_signature c).1 with _ | ts
  · rw [hg] at h
    exact absurd h (by simp)
  · rw [hg] at h
    have hts := typeGate_ge hg
    have h1 := textScore_nonneg (get_shape_signature t).2.1 (get_shape_signature c).2.1
    have h2 := hashScore_nonneg (get_shape_signature t).2.2 (get_shape_signature c).2.2
    have h3 := posScore_nonneg t c
    have hk : k = ts + textScore (get_shape_signature t).2.1 (get_shape_signature c).2.1
        + hashScore (get_shape_signature t).2.2 (get_shape_signature c).2.2
        + posScore t c := by
      exact (Option.some_inj.mp h).symm
    omega

theorem scoreShape_le_self {t c : ShapeData} {k : Int}
    (h : scoreShape t c = some k) : k ≤ selfScore t := by
  unfold scoreShape at h
  rcases hg : typeGate (get_shape_signature t).1 (get_shape_signature c).1 with _ | ts
  · rw [hg] at h
    exact absurd h (by simp)
  · rw [hg] at h
    have hts := typeGate_le hg
    have h1 := textScore_le_self (get_shape_signature t).2.1 (get_shape_signature c).2.1
    have h2 := hashScore_le_self (get_shape_signature t).2.2 (get_shape_signature c).2.2
    have h3 := posScore_le_self t c
    have hk : k = ts + textScore (get_shape_signature t).2.1 (get_shape_signature c).2.1
        + hashScore (get_shape_signature t).2.2 (get_shape_signature c).2.2
        + posScore t c := by
      exact (Option.some_inj.mp h).symm
    unfold selfScore
    omega

theorem enumIdx_append {α : Type} (n : Nat) (l1 l2 : List α) :
    enumIdx n (l1 ++ l2) = enumIdx n l1 ++ enumIdx (n + l1.length) l2 := by
  induction l1 generalizing n with
  | nil => simp [enumIdx]
  | cons a l ih =>
    show (n, a) :: enumIdx (n + 1) (l ++ l2)
        = (n, a) :: enumIdx (n + 1) l ++ enumIdx (n + (l.length + 1)) l2
    rw [ih, show n + (l.length + 1) = n + 1 + l.length from by omega]
    rfl

theorem mem_enumIdx {α : Type} {p : Nat × α} :
    ∀ {n : Nat} {l : List α}, p ∈ enumIdx n l → n ≤ p.1 ∧ p.1 < n + l.length := by
  intro n l
  induction l generalizing n with
  | nil => simp [enumIdx]
  | cons a l ih =>
    intro hp
    rcases List.mem_cons.mp hp with he | hp
    · rw [he]
      refine ⟨le_refl n, ?_⟩
      show n < n + (l.length + 1)
      omega
    · have := ih hp
      simp only [List.length_cons]
      omega

/-- Case analysis for one loop iteration: either the state is unchanged, or
an unused, gate-passing, strictly-better candidate replaces it. -/
theorem findStep_cases (target : ShapeData) (used : List Nat) (p : Nat × ShapeData)
    (st : Option ShapeData × Int × Int) :
    findStep target used p st = st ∨
    (p.1 ∉ used ∧ ∃ sc, scoreShape target p.2 = some sc ∧ st.2.2 < sc ∧
      findStep target used p st = (some p.2, (p.1 : Int), sc)) := by
  unfold findStep
  by_cases hm : p.1 ∈ used
  · rw [if_pos hm]
    exact Or.inl rfl
  · rw [if_neg hm]
    rcases hs : scoreShape target p.2 with _ | sc
    · exact Or.inl rfl
    · by_cases hlt : st.2.2 < sc
      · exact Or.inr ⟨hm, sc, rfl, hlt, by simp [hlt]⟩
      · exact Or.inl (by simp [hlt])

theorem findStep_skip (target : ShapeData) (used : List Nat) {p : Nat × ShapeData}
    (st : Option ShapeData × Int × Int)
    (h : p.1 ∈ used ∨ scoreShape target p.2 = none) :
    findStep target used p st = st := by
  unfold findStep
  rcases h with hm | hs
  · rw [if_pos hm]
  · by_cases hm : p.1 ∈ used
    · rw [if_pos hm]
    · rw [if_neg hm, hs]

theorem findLoop_append (target : ShapeData) (used : List Nat)
    (l1 l2 : List (Nat × ShapeData)) (st : Option ShapeData × Int × Int) :
    findLoop target used (l1 ++ l2) st
      = findLoop target used l2 (findLoop target used l1 st) := by
  induction l1 generalizing st with
  | nil => rfl
  | cons p l ih =>
    show findLoop target used (l ++ l2) (findStep target used p st) = _
    rw [ih]
    rfl

theorem findLoop_skip_all (target : ShapeData) (used : List Nat)
    {l : List (Nat × ShapeData)} (st : Option ShapeData × Int × Int)
    (h : ∀ p ∈ l, p.1 ∈ used ∨ scoreShape target p.2 = none) :
    findLoop target used l st = st := by
  induction l generalizing st with
  | nil => rfl
  | cons p l ih =>
    show findLoop target used l (findStep target used p st) = st
    rw [findStep_skip target used st (h p (by simp))]
    exact ih st (fun q hq => h q (by simp [hq]))

theorem findLoop_stuck (target : ShapeData) (used : List Nat)
    {l : List (Nat × ShapeData)} (st : Option ShapeData × Int × Int)
    (h : ∀ (c : ShapeData) (k : Int), scoreShape target c = some k → k ≤ st.2.2) :
    findLoop target used l st = st := by
  induction l with
  | nil => rfl
  | cons p l ih =>
    show findLoop target used l (findStep target used p st) = st
    rcases findStep_cases target used p st with he | ⟨_, sc, hs, hlt, _⟩
    · rw [he]
      exact ih
    · exact absurd hlt (by have := h p.2 sc hs; omega)

/-- The state invariant of the candidate loop: either the state is still the
initial sentinel, or it records an unused candidate together with its
score. -/
def FindInv (target : ShapeData) (used : List Nat)
    (st : Option ShapeData × Int × Int) : Prop :=
  st = (none, -1, -1) ∨
  ∃ (g : ShapeData) (j : Nat) (sc : Int),
    st = (some g, (j : Int), sc) ∧ j ∉ used ∧ scoreShape target g = some sc

theorem findStep_inv (target : ShapeData) (used : List Nat)
    {p : Nat × ShapeData} {st : Option ShapeData × Int × Int}
    (h : FindInv target used st) : FindInv target used (findStep target used p st) := by
  rcases findStep_cases target used p st with he | ⟨hm, sc, hs, _, he⟩
  · rw [he]
    exact h
  · rw [he]
    exact Or.inr ⟨p.2, p.1, sc, rfl, hm, hs⟩

theorem findLoop_inv (target : ShapeData) (used : List Nat)
    {l : List (Nat × ShapeData)} {st : Option ShapeData × Int × Int}
    (h : FindInv target used st) : FindInv target used (findLoop target used l st) := by
  induction l generalizing st with
  | nil => exact h
  | cons p l ih =>
    show FindInv target used (findLoop target used l (findStep target used p st))
    exact ih (findStep_inv target used h)

theorem findLoop_fst_some (target : ShapeData) (used : List Nat)
    {l : List (Nat × ShapeData)} {st : Option ShapeData × Int × Int}
    (h : st.1.isSome) : (findLoop target used l st).1.isSome := by
  induction l generalizing st with
  | nil => exact h
  | cons p l ih =>
    show (findLoop target used l (findStep target used p st)).1.isSome
    rcases findStep_cases target used p st with he | ⟨_, sc, _, _, he⟩
    · rw [he]
      exact ih h
    · rw [he]
      exact ih (by simp)

theorem findLoop_progress (target : ShapeData) (used : List Nat)
    {l : List (Nat × ShapeData)} {st : Option ShapeData × Int × Int}
    (hinv : FindInv target used st)
    {p : Nat × ShapeData} (hp : p ∈ l) (hpused : p.1 ∉ used)
    {sc : Int} (hps : scoreShape target p.2 = some sc) :
    (findLoop target used l st).1.isSome := by
  induction l generalizing st with
  | nil => exact absurd hp (by simp)
  | cons q l ih =>
    rcases List.mem_cons.mp hp with hq | hq
    · -- the witness is the head: after its iteration the state holds a match
      subst hq
      show (findLoop target used l (findStep target used p st)).1.isSome
      rcases hinv with h0 | ⟨g, j, s0, hst, _, _⟩
      · -- sentinel state: the head candidate necessarily replaces it
        have h5 := scoreShape_ge hps
        have hstep : findStep target used p st = (some p.2, (p.1 : Int), sc) := by
          rw [h0]
          unfold findStep
          rw [if_neg hpused, hps]
          show (if ((-1 : Int) < sc) then
              ((some p.2, ((p.1 : Nat) : Int), sc) : Option ShapeData × Int × Int)
            else (none, -1, -1)) = (some p.2, (p.1 : Int), sc)
          rw [if_pos (by omega)]
        rw [hstep]
        exact findLoop_fst_some target used (by simp)
      · -- the state already holds a candidate, the step keeps one
        rcases findStep_cases target used p st with he | ⟨_, sc2, _, _, he⟩
        · rw [he, hst]
          exact findLoop_fst_some target used (by simp)
        · rw [he]
          exact findLoop_fst_some target used (by simp)
    · -- the witness is in the tail: one step preserves the invariant
      show (findLoop target used l (findStep target used q st)).1.isSome
      exact ih (findStep_inv target used hinv) hq

/-- Greedy identity: when a list is matched against itself and the used set
is exactly `{0, ..., i-1}`, target `i` claims candidate `i` (its own copy):
earlier candidates are used, the copy scores the componentwise maximum, and
later candidates can never strictly beat it. -/
theorem find_matching_shape_identity (L : List ShapeData) (i : Nat) (hi : i < L.length)
    (used : List Nat) (hu : ∀ k : Nat, k ∈ used ↔ k < i) :
    find_matching_shape L[i] L used = (some L[i], (i : Int)) := by
  have hdecomp : enumIdx 0 L
      = enumIdx 0 (L.take i) ++ ((i, L[i]) :: enumIdx (i + 1) (L.drop (i + 1))) := by
    conv_lhs => rw [← List.take_append_drop i L]
    rw [enumIdx_append, List.length_take, Nat.min_eq_left (Nat.le_of_lt hi),
      List.drop_eq_getElem_cons hi, Nat.zero_add]
    rfl
  have hskip : ∀ p ∈ enumIdx 0 (L.take i), p.1 ∈ used ∨ scoreShape L[i] p.2 = none := by
    intro p hp
    refine Or.inl ((hu p.1).mpr ?_)
    have hb := mem_enumIdx hp
    rw [List.length_take] at hb
    omega
  have h5 : 5 ≤ selfScore L[i] := scoreShape_ge (scoreShape_self L[i])
  have hstep : findStep L[i] used (i, L[i]) (none, -1, -1)
      = (some L[i], (i : Int), selfScore L[i]) := by
    unfold findStep
    rw [if_neg (fun hm => by have := (hu i).mp hm; omega), scoreShape_self]
    show (if ((-1 : Int) < selfScore L[i]) then
        ((some L[i], (i : Int), selfScore L[i]) : Option ShapeData × Int × Int)
      else (none, -1, -1)) = (some L[i], (i : Int), selfScore L[i])
    rw [if_pos (by omega)]
  have hloop : findLoop L[i] used (enumIdx 0 L) (none, -1, -1)
      = (some L[i], (i : Int), selfScore L[i]) := by
    rw [hdecomp, findLoop_append, findLoop_skip_all L[i] used (none, -1, -1) hskip]
    show findLoop L[i] used (enumIdx (i + 1) (L.drop (i + 1)))
        (findStep L[i] used (i, L[i]) (none, -1, -1)) = _
    rw [hstep]
    exact findLoop_stuck L[i] used _ (fun c k hk => scoreShape_le_self hk)
  unfold find_matching_shape
  rw [hloop]

/-! ### Claims C2, C5, C10 -/

/-- An empty table record (used by non-table sample shapes). -/
def emptyTable : Table :=
  { cells := [], nCols := 0 }

/-- A sample table shape. -/
def sampleTableShape : ShapeData :=
  { shapeType := ShapeType.table, hasText := false, text := "", imageHash := none,
    hasPos := false, left := 0, top := 0, width := 0, height := 0,
    line := none, paragraphs := [], table := emptyTable }

/-- A sample picture shape. -/
def samplePictureShape : ShapeData :=
  { shapeType := ShapeType.picture, hasText := false, text := "", imageHash := none,
    hasPos := false, left := 0, top := 0, width := 0, height := 0,
    line := none, paragraphs := [], table := emptyTable }

/-- A sample text-box shape. -/
def sampleTextShape : ShapeData :=
  { shapeType := ShapeType.textBox, hasText := true, text := "sample", imageHash := none,
    hasPos := false, left := 0, top := 0, width := 0, height := 0,
    line := none, paragraphs := [], table := emptyTable }

/-- C2 (amended): `find_matching_shape` returns the no-match sentinel
`(None, -1)` iff every enumerated candidate is either already used or
rejected by the type-compatibility gate (`scoreShape` is `none`) — not
merely when the list is empty or all indices are used: a type-incompatible
unused candidate is also skipped. -/
theorem find_matching_shape_none_iff :
    (∀ (target : ShapeData) (cands : List ShapeData) (used : List Nat),
      (find_matching_shape target cands used).1 = none ↔
        ∀ p ∈ enumIdx 0 cands, p.1 ∈ used ∨ scoreShape target p.2 = none) ∧
    (∀ (target : ShapeData) (cands : List ShapeData) (used : List Nat),
      find_matching_shape target cands used = (none, -1) ↔
        ∀ p ∈ enumIdx 0 cands, p.1 ∈ used ∨ scoreShape target p.2 = none) := by
  have key : ∀ (target : ShapeData) (cands : List ShapeData) (used : List Nat),
      (find_matching_shape target cands used).1 = none ↔
        ∀ p ∈ enumIdx 0 cands, p.1 ∈ used ∨ scoreShape target p.2 = none := by
    intro target cands used
    constructor
    · intro h
      by_contra hall
      push_neg at hall
      rcases hall with ⟨p, hp, hpu, hps⟩
      rcases Option.ne_none_iff_exists'.mp hps with ⟨sc, hsc⟩
      have hsome := findLoop_progress target used
        (show FindInv target used (none, -1, -1) from Or.inl rfl) hp hpu hsc
      have h' : (findLoop target used (enumIdx 0 cands) (none, -1, -1)).1 = none := h
      rw [h'] at hsome
      exact Bool.noConfusion hsome
    · intro h
      show (findLoop target used (enumIdx 0 cands) (none, -1, -1)).1 = none
      rw [findLoop_skip_all target used (none, -1, -1) h]
  refine ⟨key, ?_⟩
  intro target cands used
  constructor
  · intro h
    exact (key target cands used).mp (congrArg Prod.fst h)
  · intro h
    unfold find_matching_shape
    rw [findLoop_skip_all target used (none, -1, -1) h]

/-- C2 counterexample: a table target against a single unused picture
candidate — the list is nonempty and nothing is used, yet the gate rejects
the candidate and the matcher returns `(None, -1)`. -/
theorem find_matching_shape_unused_rejected_counterexample :
    find_matching_shape sampleTableShape [samplePictureShape] [] = (none, -1) ∧
    [samplePictureShape] ≠ ([] : List ShapeData) ∧
    ∀ i : Nat, i ∉ ([] : List Nat) := by
  refine ⟨rfl, by simp, by simp⟩

/-- C5: the type-compatibility gate: an exact type match contributes
`+10`, two distinct text-bearing types (`TextBox`/`AutoShape`/`Placeholder`)
contribute `+5`, any other combination is rejected outright
(`scoreShape = none`), and a gate-rejected candidate is never returned by
`find_matching_shape`. -/
theorem type_gate_scoring :
    (∀ t c : ShapeData, (get_shape_signature t).1 = (get_shape_signature c).1 →
      ∃ r : Int, scoreShape t c = some (10 + r) ∧ 0 ≤ r) ∧
    (∀ t c : ShapeData, (get_shape_signature t).1 ≠ (get_shape_signature c).1 →
      (get_shape_signature t).1 ∈ TEXT_SHAPE_TYPES →
      (get_shape_signature c).1 ∈ TEXT_SHAPE_TYPES →
      ∃ r : Int, scoreShape t c = some (5 + r) ∧ 0 ≤ r) ∧
    (∀ t c : ShapeData, (get_shape_signature t).1 ≠ (get_shape_signature c).1 →
      ¬((get_shape_signature t).1 ∈ TEXT_SHAPE_TYPES ∧
        (get_shape_signature c).1 ∈ TEXT_SHAPE_TYPES) →
      scoreShape t c = none) ∧
    (∀ (target : ShapeData) (cands : List ShapeData) (used : List Nat)
        (g : ShapeData) (gi : Int),
      find_matching_shape target cands used = (some g, gi) →
      scoreShape target g ≠ none) := by
  refine ⟨?_, ?_, ?_, ?_⟩
  · intro t c h
    refine ⟨textScore (get_shape_signature t).2.1 (get_shape_signature c).2.1
      + hashScore (get_shape_signature t).2.2 (get_shape_signature c).2.2
      + posScore t c, ?_, ?_⟩
    · unfold scoreShape
      rw [show typeGate (get_shape_signature t).1 (get_shape_signature c).1 = some 10 from by
        unfold typeGate; rw [if_pos h]]
      exact congrArg some (by ring)
    · have h1 := textScore_nonneg (get_shape_signature t).2.1 (get_shape_signature c).2.1
      have h2 := hashScore_nonneg (get_shape_signature t).2.2 (get_shape_signature c).2.2
      have h3 := posScore_nonneg t c
      omega
  · intro t c h h1 h2
    refine ⟨textScore (get_shape_signature t).2.1 (get_shape_signature c).2.1
      + hashScore (get_shape_signature t).2.2 (get_shape_signature c).2.2
      + posScore t c, ?_, ?_⟩
    · unfold scoreShape
      rw [show typeGate (get_shape_signature t).1 (get_shape_signature c).1 = some 5 from by
        unfold typeGate; rw [if_neg h, if_pos ⟨h1, h2⟩]]
      exact congrArg some (by ring)
    · have h1 := textScore_nonneg (get_shape_signature t).2.1 (get_shape_signature c).2.1
      have h2 := hashScore_nonneg (get_shape_signature t).2.2 (get_shape_signature c).2.2
      have h3 := posScore_nonneg t c
      omega
  · intro t c h h2
    unfold scoreShape
    rw [show typeGate (get_shape_signature t).1 (get_shape_signature c).1 = none from by
      unfold typeGate; rw [if_neg h, if_neg h2]]
  · intro target cands used g gi h
    have h1 : (findLoop target used (enumIdx 0 cands) (none, -1, -1)).1 = some g :=
      congrArg Prod.fst h
    rcases findLoop_inv target used (l := enumIdx 0 cands)
        (show FindInv target used (none, -1, -1) from Or.inl rfl) with
      h0 | ⟨g', j, sc, hst, _, hsc⟩
    · rw [h0] at h1
      exact Option.noConfusion h1
    · rw [hst] at h1
      have hg : g' = g := Option.some_inj.mp h1
      rw [hg] at hsc
      rw [hsc]
      simp

theorem type_gate_scoring_witness :
    scoreShape sampleTableShape samplePictureShape = none ∧
    scoreShape sampleTextShape sampleTextShape ≠ none :=
  ⟨type_gate_scoring.2.2.1 sampleTableShape samplePictureShape (by decide) (by decide),
   type_gate_scoring.2.2.2 sampleTextShape [sampleTextShape] [] sampleTextShape 0 rfl⟩

/-- C10: the matcher never returns an index from the used set (the
returned index is a natural number outside `used`), and the per-slide
pairing loop, which inserts each claimed index before the next query,
accumulates a duplicate-free used set — no golden index is claimed twice. -/
theorem matcher_never_reuses_indices :
    (∀ (target : ShapeData) (cands : List ShapeData) (used : List Nat)
        (g : ShapeData) (gi : Int),
      find_matching_shape target cands used = (some g, gi) →
      ∃ j : Nat, gi = (j : Int) ∧ j ∉ used) ∧
    (∀ (tests goldens : List ShapeData) (used u' : List Nat),
      used.Nodup → mainPairLoop tests goldens used = some u' → u'.Nodup) := by
  constructor
  · intro target cands used g gi h
    have h1 : (findLoop target used (enumIdx 0 cands) (none, -1, -1)).1 = some g :=
      congrArg Prod.fst h
    have h2 : (findLoop target used (enumIdx 0 cands) (none, -1, -1)).2.1 = gi :=
      congrArg Prod.snd h
    rcases findLoop_inv target used (l := enumIdx 0 cands)
        (show FindInv target used (none, -1, -1) from Or.inl rfl) with
      h0 | ⟨g', j, sc, hst, hju, _⟩
    · rw [h0] at h1
      exact Option.noConfusion h1
    · rw [hst] at h2
      exact ⟨j, h2.symm, hju⟩
  · intro tests
    induction tests with
    | nil =>
      intro goldens used u' hnd h
      have he : used = u' := Option.some_inj.mp h
      rw [← he]
      exact hnd
    | cons t ts ih =>
      intro goldens used u' hnd h
      unfold mainPairLoop at h
      rcases hf : find_matching_shape t goldens used with ⟨b, gi⟩
      cases b with
      | none =>
        rw [hf] at h
        exact Option.noConfusion h
      | some g =>
        rw [hf] at h
        have h' : (if compareMatchedPair t g = true then
            mainPairLoop ts goldens (used.insert gi.toNat) else none) = some u' := h
        by_cases hcmp : compareMatchedPair t g = true
        · rw [if_pos hcmp] at h'
          exact ih goldens (used.insert gi.toNat) u' hnd.insert h'
        · rw [if_neg hcmp] at h'
          exact Option.noConfusion h'

theorem matcher_never_reuses_indices_witness :
    (∃ j : Nat, (0 : Int) = (j : Int) ∧ j ∉ ([] : List Nat)) ∧ ([0] : List Nat).Nodup :=
  ⟨matcher_never_reuses_indices.1 sampleTextShape [sampleTextShape] [] sampleTextShape 0 rfl,
   matcher_never_reuses_indices.2 [sampleTextShape] [sampleTextShape] [] [0]
     List.nodup_nil rfl⟩

/-! ### Reflexivity of the comparison checks -/

theorem is_approximately_equal_self (x : Int) (t : Rat) :
    is_approximately_equal x x t = true := by
  unfold is_approximately_equal
  rw [if_pos rfl]

theorem numbers_equal_self (x : Int) : numbers_equal x x = true :=
  is_approximately_equal_self x _

theorem fonts_effectively_equal_self (v : Option Bool) (b : Bool) :
    fonts_effectively_equal v v b = true := by
  unfold fonts_effectively_equal
  rw [if_pos rfl]

theorem zip_self_all {α : Type} (l : List α) (f : α × α → Bool)
    (h : ∀ x ∈ l, f (x, x) = true) : (l.zip l).all f = true := by
  induction l with
  | nil => rfl
  | cons a l ih =>
    show ((a, a) :: l.zip l).all f = true
    rw [List.all_cons, h a (by simp), ih (fun x hx => h x (by simp [hx]))]
    rfl

theorem compare_bullets_self (b : List Bullet) : compare_bullets b b = true := by
  unfold compare_bullets
  rw [if_neg (by simp)]
  exact zip_self_all b _ (fun x hx => by simp)

theorem underlineTextOk_self (u : Option Bool) : underlineTextOk u u = true := by
  unfold underlineTextOk
  rw [if_pos rfl]

theorem underlineTableOk_self (u : Option Bool) : underlineTableOk u u = true := by
  unfold underlineTableOk
  rw [if_pos rfl]

theorem colorOk_self (c : Option Nat) : colorOk c c = true := by
  cases c <;> simp [colorOk]

theorem textRunOk_self (r : Run) : textRunOk r r = true := by
  rcases hb : r.bullets with _ | bl <;>
    simp [textRunOk, fonts_effectively_equal_self, colorOk_self, underlineTextOk_self, hb,
      compare_bullets_self]

theorem textParaOk_self (p : Paragraph) : textParaOk p p = true := by
  unfold textParaOk
  rw [zip_self_all p.runs (fun q => textRunOk q.1 q.2) (fun r _ => textRunOk_self r)]
  simp

theorem compare_text_shape_self (d : ShapeData) : compare_text_shape d d = 1 := by
  unfold compare_text_shape
  rw [if_pos ⟨rfl, rfl, zip_self_all _ _ (fun p _ => textParaOk_self p)⟩]

theorem compare_shape_geometry_self (d : ShapeData) : compare_shape_geometry d d = true := by
  simp [compare_shape_geometry, numbers_equal_self]

theorem compare_picture_shape_self (d : ShapeData) : compare_picture_shape d d = 1 := by
  rcases hl : d.line with _ | l <;> rcases hh : d.imageHash with _ | h <;>
    simp [compare_picture_shape, numbers_equal_self, is_approximately_equal_self,
      colorOk_self, hl, hh]

theorem tableRunOk_self (r : Run) : tableRunOk r r = true := by
  simp [tableRunOk, colorOk_self, fonts_effectively_equal_self, underlineTableOk_self]

theorem tableParaOk_self (p : Paragraph) : tableParaOk p p = true := by
  unfold tableParaOk
  rw [zip_self_all p.runs (fun q => tableRunOk q.1 q.2) (fun r _ => tableRunOk_self r)]
  simp

theorem tableCellOk_self (c : Cell) : tableCellOk c c = true := by
  unfold tableCellOk
  rw [zip_self_all c.paragraphs (fun q => tableParaOk q.1 q.2) (fun p _ => tableParaOk_self p)]
  simp

theorem compare_table_shape_self (d : ShapeData) : compare_table_shape d d = 1 := by
  unfold compare_table_shape
  rw [if_neg (by simp), if_neg (by simp [numbers_equal_self]), if_neg (by simp),
    if_pos (List.all_eq_true.mpr (fun r _ =>
      List.all_eq_true.mpr (fun c _ => tableCellOk_self _)))]

theorem compareMatchedPair_self (d : ShapeData) : compareMatchedPair d d = true := by
  unfold compareMatchedPair
  split_ifs <;>
    simp [compare_picture_shape_self, compare_table_shape_self,
      compare_shape_geometry_self, compare_text_shape_self]

/-! ### Self-comparison of the main loop -/

theorem nodup_length_eq {used : List Nat} {n : Nat} (hnd : used.Nodup)
    (hmem : ∀ k : Nat, k ∈ used ↔ k < n) : used.length = n := by
  have h1 : used.toFinset = Finset.range n := by
    ext k
    rw [List.mem_toFinset, Finset.mem_range]
    exact hmem k
  have h2 := List.toFinset_card_of_nodup hnd
  rw [h1, Finset.card_range] at h2
  omega

theorem insert_mem_inv {used : List Nat} {i : Nat}
    (hmem : ∀ k : Nat, k ∈ used ↔ k < i) :
    ∀ k : Nat, k ∈ used.insert i ↔ k < i + 1 := by
  intro k
  rw [List.mem_insert_iff, hmem k]
  omega

theorem mainPairLoop_self (L : List ShapeData) :
    ∀ (n i : Nat) (used : List Nat), L.length - i = n → i ≤ L.length →
      (∀ k : Nat, k ∈ used ↔ k < i) → used.Nodup →
      ∃ u', mainPairLoop (L.drop i) L used = some u' ∧ u'.length = L.length := by
  intro n
  induction n with
  | zero =>
    intro i used hn hle hmem hnd
    have hi : i = L.length := by omega
    subst hi
    rw [List.drop_length]
    exact ⟨used, rfl, nodup_length_eq hnd hmem⟩
  | succ n ih =>
    intro i used hn hle hmem hnd
    have hi : i < L.length := by omega
    rw [List.drop_eq_getElem_cons hi]
    have hfind := find_matching_shape_identity L i hi used hmem
    have hstep : mainPairLoop (L[i] :: L.drop (i + 1)) L used
        = mainPairLoop (L.drop (i + 1)) L (used.insert ((i : Int)).toNat) := by
      calc mainPairLoop (L[i] :: L.drop (i + 1)) L used
          = if compareMatchedPair L[i] L[i] = true then
              mainPairLoop (L.drop (i + 1)) L (used.insert ((i : Int)).toNat)
            else none := by
            show (match find_matching_shape L[i] L used with
              | (none, _) => none
              | (some g, gi) =>
                if compareMatchedPair L[i] g = true then
                  mainPairLoop (L.drop (i + 1)) L (used.insert gi.toNat)
                else none) = _
            rw [hfind]
        _ = mainPairLoop (L.drop (i + 1)) L (used.insert ((i : Int)).toNat) := by
            rw [if_pos (compareMatchedPair_self _)]
    rw [hstep, Int.toNat_ofNat]
    exact ih (i + 1) (used.insert i) (by omega) (by omega) (insert_mem_inv hmem) hnd.insert

theorem textPairLoop_self (L : List ShapeData) :
    ∀ (n i : Nat) (used : List Nat), L.length - i = n → i ≤ L.length →
      (∀ k : Nat, k ∈ used ↔ k < i) →
      textPairLoop (L.drop i) L used = true := by
  intro n
  induction n with
  | zero =>
    intro i used hn hle hmem
    have hi : i = L.length := by omega
    subst hi
    rw [List.drop_length]
    rfl
  | succ n ih =>
    intro i used hn hle hmem
    have hi : i < L.length := by omega
    rw [List.drop_eq_getElem_cons hi]
    have hfind := find_matching_shape_identity L i hi used hmem
    have hstep : textPairLoop (L[i] :: L.drop (i + 1)) L used
        = (decide (pyStrip L[i].text = pyStrip L[i].text) &&
           decide (L[i].paragraphs.length = L[i].paragraphs.length) &&
           (L[i].paragraphs.zip L[i].paragraphs).all (fun p =>
             decide (normalize_alignment p.1.alignment = normalize_alignment p.2.alignment)) &&
           textPairLoop (L.drop (i + 1)) L (used.insert ((i : Int)).toNat)) := by
      show (match find_matching_shape L[i] L used with
        | (none, _) => false
        | (some g, gi) =>
          decide (pyStrip L[i].text = pyStrip g.text) &&
          decide (L[i].paragraphs.length = g.paragraphs.length) &&
          (L[i].paragraphs.zip g.paragraphs).all (fun p =>
            decide (normalize_alignment p.1.alignment = normalize_alignment p.2.alignment)) &&
          textPairLoop (L.drop (i + 1)) L (used.insert gi.toNat)) = _
      rw [hfind]
    rw [hstep, Int.toNat_ofNat,
      ih (i + 1) (used.insert i) (by omega) (by omega) (insert_mem_inv hmem),
      zip_self_all L[i].paragraphs
        (fun p => decide (normalize_alignment p.1.alignment = normalize_alignment p.2.alignment))
        (fun p _ => by simp)]
    simp

theorem slideOk_self (s : Slide) : slideOk s s = true := by
  unfold slideOk
  rcases mainPairLoop_self (s.shapes.map Shape.data) (s.shapes.map Shape.data).length 0 []
      (by omega) (by omega) (by simp) List.nodup_nil with ⟨u', hu', hlen⟩
  rw [List.drop_zero] at hu'
  have htext := textPairLoop_self ((extractFromShapeList s.shapes).map Shape.data)
    ((extractFromShapeList s.shapes).map Shape.data).length 0 [] (by omega) (by omega) (by simp)
  rw [List.drop_zero] at htext
  rw [hu', htext]
  simp [hlen]

/-! ### Claim C8 -/

/-- C8: self-comparison always matches: `compare_pptx_files A A = 1` for
*every* document model `A` — in particular the greedy fuzzy pairing pairs
each shape with its own copy and every tolerance and equality check passes
on identical values. -/
theorem compare_pptx_files_self (A : List Slide) : compare_pptx_files A A = 1 := by
  unfold compare_pptx_files
  rw [if_neg (by simp), if_pos (zip_self_all A _ (fun s _ => slideOk_self s))]

/-! ### Claim C6 -/

/-- A concrete table shape at `left = 1000000`. -/
def tableAtA : ShapeData :=
  { shapeType := ShapeType.table, hasText := false, text := "", imageHash := none,
    hasPos := true, left := 1000000, top := 0, width := 500000, height := 500000,
    line := none, paragraphs := [], table := emptyTable }

/-- The same table shape drifted to `left = 1003000` (3000 EMUs ≈ 0.3%). -/
def tableAtB : ShapeData :=
  { tableAtA with left := 1003000 }

/-- C6: `compare_table_shape` fails whenever the left or top drift
exceeds the absolute 2000-EMU tolerance (no percentage fallback), and this
is strictly tighter than generic geometry: a 3000-EMU drift at
`left = 1000000` passes `compare_shape_geometry` (0.3% < 0.5%) but fails
the table position check. -/
theorem table_position_tolerance :
    (∀ d1 d2 : ShapeData, 2000 < |d1.left - d2.left| ∨ 2000 < |d1.top - d2.top| →
      compare_table_shape d1 d2 = 0) ∧
    (compare_shape_geometry tableAtA tableAtB = true ∧
     numbers_equal tableAtA.left tableAtB.left = true ∧
     compare_table_shape tableAtA tableAtB = 0) := by
  have hleft : numbers_equal 1000000 1003000 = true := by
    unfold numbers_equal is_approximately_equal
    rw [if_neg (by norm_num), if_neg (by norm_num),
      show |(1000000 : Int) - 1003000| = 3000 by norm_num,
      if_neg (by norm_num), if_neg (by norm_num),
      show max |(1000000 : Int)| |(1003000 : Int)| = 1003000 by norm_num]
    norm_num
  refine ⟨?_, ?_, ?_, ?_⟩
  · intro d1 d2 h
    unfold compare_table_shape
    rw [if_pos h]
  · simp [compare_shape_geometry, tableAtA, tableAtB, hleft, numbers_equal_self]
  · exact hleft
  · unfold compare_table_shape
    rw [if_pos (Or.inl (show (2000 : Int) < |tableAtA.left - tableAtB.left| from by
      show (2000 : Int) < |(1000000 : Int) - 1003000|
      norm_num))]

theorem table_position_tolerance_witness :
    compare_table_shape tableAtA tableAtB = 0 :=
  table_position_tolerance.1 tableAtA tableAtB (Or.inl (show
    (2000 : Int) < |tableAtA.left - tableAtB.left| from by
      show (2000 : Int) < |(1000000 : Int) - 1003000|
      norm_num))

end Evaluators
